import Mathlib

/-!
Verification of the multi-agent RAG pipeline (planner, critic, reviser,
revision loop, answer generator, session memory, chunker).

Each Python module is shallowly embedded: pure functions become Lean
functions over `String` (backed by `List Char`, matching Python's
code-point semantics for `len`, slicing and iteration); the external
generation service (`get_llm(...)` applied to a prompt) is passed in as an
explicit parameter `llm : String → String`; Python `float` ratios are
modelled as `ℚ` (the comparison constants 0.3 and 0.5 and the reachable
ratios k/n are exactly representable, so the branch outcomes coincide).
Python's `re` word-boundary patterns used by the planner are embedded by a
specialized matcher (`tryAlts` / `reSplit` / `reSearch`) that follows
Python's leftmost scan with in-order alternation and greedy `\s+`.
-/

/-- Python `str.isspace`-style whitespace test covering the characters
`str.strip()` and `str.split()` treat as whitespace. -/
def pyIsSpace (c : Char) : Bool :=
  c = ' ' || c = '\t' || c = '\n' || c = '\r' || c = '\x0b' || c = '\x0c'

/-- Core of Python `str.strip()`: drop leading and trailing whitespace. -/
def stripList (l : List Char) : List Char :=
  ((l.dropWhile pyIsSpace).reverse.dropWhile pyIsSpace).reverse

/-- Python `s.strip()`. -/
def pyStrip (s : String) : String :=
  ⟨stripList s.data⟩

/-- Python `s.lower()` (ASCII letters; the repository's queries, phrases and
stop words are ASCII). -/
def pyLower (s : String) : String :=
  ⟨s.data.map Char.toLower⟩

/-- Python `s[:n]` for `n ≥ 0`. -/
def pySlice (s : String) (n : Nat) : String :=
  ⟨s.data.take n⟩

/-- Python `sub in s` substring containment. -/
def strContains (hay pat : String) : Bool :=
  decide (pat.data <:+: hay.data)

/-- Helper for Python `str.split()` with no separator: accumulate the
current word (reversed in `acc`) and cut at whitespace, dropping empties. -/
def splitWsGo : List Char → List Char → List (List Char)
  | [], acc => if acc.isEmpty then [] else [acc.reverse]
  | c :: cs, acc =>
    if pyIsSpace c then
      if acc.isEmpty then splitWsGo cs [] else acc.reverse :: splitWsGo cs []
    else splitWsGo cs (c :: acc)

/-- Python `s.split()`: split on whitespace runs, no empty parts. -/
def pySplitWs (s : String) : List String :=
  (splitWsGo s.data []).map (fun l => ⟨l⟩)

/-- Python regex `\w` class on ASCII: letters, digits and underscore. -/
def isWordChar (c : Char) : Bool :=
  c.isAlphanum || c = '_'

/-- One sequential piece of an alternative of the planner's regexes:
either a literal, or `\s+` followed by a literal (as in `compared?\s+to`). -/
inductive PatPiece where
  | lit : List Char → PatPiece
  | spacesLit : List Char → PatPiece
deriving DecidableEq

/-- One alternative of a `\b(?:...)\b` pattern: its pieces in order, and
whether its last character is a word character (used for the trailing
`\b` check, and as the left context when scanning resumes). -/
structure Alt where
  pieces : List PatPiece
  lastWord : Bool
deriving DecidableEq

/-- Match a literal at the start of the input, returning the rest. -/
def matchLit : List Char → List Char → Option (List Char)
  | [], l => some l
  | _ :: _, [] => none
  | p :: ps, c :: cs => if p = c then matchLit ps cs else none

/-- Match `\s+` then a literal. The literals used (`to`, `with`) start with
a non-space character, so the greedy maximal munch of `\s+` is the only
position at which the literal can match. -/
def matchSpacesThen (w : List Char) : List Char → Option (List Char)
  | [] => none
  | c :: cs => if pyIsSpace c then matchLit w (cs.dropWhile pyIsSpace) else none

/-- Match the pieces of an alternative in sequence. -/
def matchPieces : List PatPiece → List Char → Option (List Char)
  | [], l => some l
  | PatPiece.lit w :: ps, l => (matchLit w l).bind (matchPieces ps)
  | PatPiece.spacesLit w :: ps, l => (matchSpacesThen w l).bind (matchPieces ps)

/-- Match one alternative, then require the trailing `\b`: a boundary
between the last matched character and the first remaining character. -/
def matchAlt (a : Alt) (l : List Char) : Option (List Char) :=
  match matchPieces a.pieces l with
  | some rest =>
    let nextWord := match rest.head? with
      | some c => isWordChar c
      | none => false
    if a.lastWord != nextWord then some rest else none
  | none => none

/-- Try the alternatives in order at the current position (Python tries
the members of an alternation left to right); return the last matched
character's wordness and the remaining input. -/
def tryAlts : List Alt → List Char → Option (Bool × List Char)
  | [], _ => none
  | a :: more, l =>
    match matchAlt a l with
    | some rest => some (a.lastWord, rest)
    | none => tryAlts more l

/-- Scan for a `\b(?:...)\b` match (Python `re.search`): at each position
whose left context forms a word boundary, try the alternatives. -/
def reSearchGo (alts : List Alt) : Bool → List Char → Bool
  | _, [] => false
  | preWord, c :: cs =>
    if (preWord != isWordChar c) && (tryAlts alts (c :: cs)).isSome then true
    else reSearchGo alts (isWordChar c) cs

/-- Python `re.search(r'\b(?:alts)\b', s) is not None`. -/
def reSearch (alts : List Alt) (s : String) : Bool :=
  reSearchGo alts false s.data

/-- Scan-and-split (Python `re.split`): cut at each leftmost match and
resume after it. `fuel` only bounds the recursion; every alternative used
consumes at least one character, so `length + 1` fuel never runs out. -/
def reSplitGo (alts : List Alt) : Nat → Bool → List Char → List Char → List (List Char)
  | 0, _, acc, l => [acc.reverse ++ l]
  | fuel + 1, preWord, acc, l =>
    match l with
    | [] => [acc.reverse]
    | c :: cs =>
      if preWord != isWordChar c then
        match tryAlts alts (c :: cs) with
        | some (lw, rest) => acc.reverse :: reSplitGo alts fuel lw [] rest
        | none => reSplitGo alts fuel (isWordChar c) (c :: acc) cs
      else reSplitGo alts fuel (isWordChar c) (c :: acc) cs

/-- Python `re.split(r'\b(?:alts)\b', s)`. -/
def reSplit (alts : List Alt) (s : String) : List String :=
  (reSplitGo alts (s.data.length + 1) false [] s.data).map (fun l => ⟨l⟩)

/-- A single-literal alternative `\bw\b` (covering `\b` + `re.escape(w)` +
`\b` for the planner's compound words, including multi-word phrases). -/
def mkWordAlt (w : String) : Alt :=
  { pieces := [PatPiece.lit w.data]
    lastWord := match w.data.getLast? with
      | some c => isWordChar c
      | none => false }

/-- The alternatives of the planner's connector-splitting pattern
`\b(?:and|vs\.?|versus|compared?\s+to|contrast\s+with)\b`, in Python's
alternation order, with the optional characters expanded greedily-first
(`vs.` before `vs`, `compared` before `compare`). -/
def connAlts : List Alt :=
  [ mkWordAlt "and",
    { pieces := [PatPiece.lit "vs.".data], lastWord := false },
    mkWordAlt "vs",
    mkWordAlt "versus",
    { pieces := [PatPiece.lit "compared".data, PatPiece.spacesLit "to".data], lastWord := true },
    { pieces := [PatPiece.lit "compare".data, PatPiece.spacesLit "to".data], lastWord := true },
    { pieces := [PatPiece.lit "contrast".data, PatPiece.spacesLit "with".data], lastWord := true } ]

/-- `COMPOUND_WORDS` from `planner_agent.py`. -/
def COMPOUND_WORDS : List String :=
  ["and", "compare", "comparison", "difference", "differences",
   "versus", "vs", "contrast", "advantages and disadvantages"]

/-- `SECTION_MAP` from `planner_agent.py`, in dict insertion order. -/
def SECTION_MAP : List (String × String) :=
  [ ("methodology", "Find info about the methodology or methods used."),
    ("method", "Find info about the methodology or methods used."),
    ("approach", "Find info about the approach taken."),
    ("limitation", "Find info about the limitations."),
    ("limitations", "Find info about the limitations."),
    ("result", "Find info about the results."),
    ("results", "Find info about the results."),
    ("finding", "Find the key findings."),
    ("findings", "Find the key findings."),
    ("contribution", "Find the contributions of this work."),
    ("contributions", "Find the contributions of this work."),
    ("conclusion", "Find the conclusions."),
    ("abstract", "Find the abstract or summary."),
    ("introduction", "Find information from the introduction."),
    ("related work", "Find info about related work."),
    ("future work", "Find info about future work suggestions."),
    ("evaluation", "Find info about how they evaluated their work."),
    ("experiment", "Find info about the experiments."),
    ("dataset", "Find info about the dataset used.") ]

/-- The `complex_phrases` list of `check_complexity` (note: it does not
include `versus`). -/
def complex_phrases : List String :=
  ["compare", "difference", "advantages and disadvantages",
   "limitations", "pros and cons", "contrast"]

/-- The complexity verdict part of a `Plan`. -/
structure Complexity where
  is_complex : Bool
  reason : String
deriving DecidableEq

/-- `check_complexity` from `planner_agent.py`: first phrase hit wins;
otherwise a standalone `and` joining parts that each strip to more than 5
characters; otherwise simple. -/
def check_complexity (query : String) : Complexity :=
  let q := pyStrip (pyLower query)
  match complex_phrases.find? (fun p => strContains q p) with
  | some phrase =>
    { is_complex := true
      reason := "Found \x27" ++ phrase ++ "\x27 - query likely needs multiple retrieval steps" }
  | none =>
    if reSearch [mkWordAlt "and"] q then
      let parts := reSplit [mkWordAlt "and"] q
      if 2 ≤ parts.length ∧ parts.all (fun p => decide (5 < (pyStrip p).length)) then
        { is_complex := true
          reason := "Query uses \x27and\x27 to connect multiple topics" }
      else
        { is_complex := false, reason := "Simple single-topic query" }
    else
      { is_complex := false, reason := "Simple single-topic query" }

/-- The planner's `Plan` record. -/
structure Plan where
  original_query : String
  complexity : Complexity
  is_compound : Bool
  subtasks : List String
  reasoning : String
deriving DecidableEq

/-- The section-keyword scan of `plan_query`: collect the intent text of
every keyword contained in the query, deduplicated by intent text, in
`SECTION_MAP` order. -/
def sectionScan (q_lower : String) : List String :=
  SECTION_MAP.foldl
    (fun acc kv =>
      if strContains q_lower kv.1 && !(acc.contains kv.2) then acc ++ [kv.2] else acc)
    []

/-- Python `str.capitalize()`: first character upper-cased, rest
lower-cased (the planner applies it to already-lower-cased parts). -/
def pyCapitalize (s : String) : String :=
  match s.data with
  | [] => ""
  | c :: cs => ⟨Char.toUpper c :: cs.map Char.toLower⟩

/-- Number a list of subtask descriptions as `Subtask i: ...`, 1-based. -/
def numberSubtasks (parts : List String) : List String :=
  parts.enum.map (fun im => "Subtask " ++ toString (im.1 + 1) ++ ": " ++ im.2)

/-- `plan_query` from `planner_agent.py`. -/
def plan_query (query : String) : Plan :=
  let q_lower := pyStrip (pyLower query)
  let complexity := check_complexity query
  if complexity.is_complex = false then
    let matched := sectionScan q_lower
    if matched.isEmpty then
      { original_query := query
        complexity := complexity
        is_compound := false
        subtasks := ["Subtask 1: " ++ query]
        reasoning := "Simple query, no decomposition needed." }
    else
      let subtasks := numberSubtasks matched
      { original_query := query
        complexity := complexity
        is_compound := decide (1 < subtasks.length)
        subtasks := subtasks
        reasoning := "Simple query targeting " ++ toString matched.length ++ " section(s)." }
  else
    let is_compound := COMPOUND_WORDS.any (fun w => reSearch [mkWordAlt w] q_lower)
    if is_compound then
      let parts := (reSplit connAlts q_lower).map pyStrip |>.filter (fun p => p ≠ "")
      if 1 < parts.length then
        let subtasks := numberSubtasks (parts.map pyCapitalize) ++
          ["Subtask " ++ toString (parts.length + 1) ++ ": Combine and summarize findings."]
        { original_query := query
          complexity := complexity
          is_compound := is_compound || decide (1 < subtasks.length)
          subtasks := subtasks
          reasoning := "Split into " ++ toString parts.length ++ " parts + synthesis step." }
      else
        let subtasks := ["Subtask 1: " ++ query]
        { original_query := query
          complexity := complexity
          is_compound := is_compound || decide (1 < subtasks.length)
          subtasks := subtasks
          reasoning := "Detected compound keyword but couldn\x27t split meaningfully." }
    else
      let subtasks := ["Subtask 1: " ++ query]
      { original_query := query
        complexity := complexity
        is_compound := is_compound || decide (1 < subtasks.length)
        subtasks := subtasks
        reasoning := "Marked complex but single-topic." }

/-- `LLM_NAME` from `answer_agent.py`. -/
def LLM_NAME : String := "google/flan-t5-base"

/-- `make_prompt` from `answer_agent.py` (Python's adjacent string
literals concatenated). -/
def make_prompt (question context : String) : String :=
  "Answer the following question based only on the provided context. " ++
  "If the answer is not in the context, say \x27The context does not " ++
  "contain enough information to answer this.\x27 Be specific.\n\n" ++
  "Context:\n" ++ context ++ "\n\n" ++
  "Question: " ++ question ++ "\n\n" ++
  "Answer:"

/-- The record `build_answer` returns. -/
structure AnswerResult where
  answer : String
  prompt_used : String
  model : String
deriving DecidableEq

/-- `build_answer` from `answer_agent.py`: build the prompt, and if it
exceeds 2000 characters rebuild it from the first 1800 characters of the
context; then invoke the generation service. -/
def build_answer (llm : String → String) (question context model_name : String) : AnswerResult :=
  let prompt := make_prompt question context
  let prompt := if 2000 < prompt.length then make_prompt question (pySlice context 1800) else prompt
  { answer := pyStrip (llm prompt)
    prompt_used := prompt
    model := model_name }

/-- The stop-word set of `heuristic_checks` in `critic_agent.py`. -/
def STOP_WORDS : List String :=
  ["the", "a", "an", "is", "are", "was", "were", "in", "on", "at",
   "to", "for", "of", "and", "or", "it", "this", "that", "with", "by"]

/-- The `no_info` phrase list of `heuristic_checks`. -/
def NO_INFO_PHRASES : List String :=
  ["does not contain", "not found", "no information",
   "cannot answer", "not mentioned", "not available"]

/-- Python `set(s.lower().split())` as a duplicate-free list. -/
def rawTokenSet (s : String) : List String :=
  (pySplitWs (pyLower s)).dedup

/-- Python `set(s.lower().split()) - stop`. -/
def tokenSet (s : String) : List String :=
  (rawTokenSet s).filter (fun w => decide (w ∉ STOP_WORDS))

/-- The grounding ratio of `heuristic_checks`:
`|answer_tokens ∩ context_tokens| / |answer_tokens|`, 0 when the answer
has no non-stop tokens. -/
def grounding_overlap (answer context : String) : ℚ :=
  let ans_words := tokenSet answer
  let ctx_words := tokenSet context
  if 0 < ans_words.length then
    ((ans_words.filter (fun w => decide (w ∈ ctx_words))).length : ℚ) / (ans_words.length : ℚ)
  else 0

/-- The relevance ratio of `heuristic_checks`:
`|question_tokens ∩ set(answer.lower().split())| / max(|question_tokens|, 1)`
(the answer side is the raw token set, not stop-filtered, as in the code). -/
def q_overlap (answer question : String) : ℚ :=
  let q_words := tokenSet question
  ((q_words.filter (fun w => decide (w ∈ rawTokenSet answer))).length : ℚ) /
    ((max q_words.length 1 : ℕ) : ℚ)

/-- The length deduction of `heuristic_checks`. -/
def length_penalty (answer : String) : Int :=
  if answer.length < 20 then 3 else if answer.length < 50 then 1 else 0

/-- The length note of `heuristic_checks`. -/
def length_note (answer : String) : String :=
  if answer.length < 20 then "Very short answer (< 20 chars), probably incomplete"
  else if answer.length < 50 then "Kinda short, might be missing detail"
  else "Length seems fine"

/-- The no-info test of `heuristic_checks`: case-insensitive substring
match of any phrase. -/
def no_info_hit (answer : String) : Bool :=
  NO_INFO_PHRASES.any (fun p => strContains (pyLower answer) p)

/-- Python `f"{r:.0%}"`: the value times 100, rounded half-to-even to an
integer, with a percent sign. -/
def pct (r : ℚ) : String :=
  let x := r * 100
  let n : ℤ := ⌊x⌋
  let frac := x - (n : ℚ)
  let v : ℤ :=
    if 1 / 2 < frac then n + 1
    else if frac < 1 / 2 then n
    else if n % 2 = 0 then n else n + 1
  toString v ++ "%"

/-- The grounding deduction of `heuristic_checks` as a function of the
ratio (Python's float literals 0.3 and 0.5; on the reachable ratios the
rational comparison agrees with the float one). -/
def grounding_penalty (r : ℚ) : Int :=
  if r < 3 / 10 then 3 else if r < 1 / 2 then 1 else 0

/-- The grounding note of `heuristic_checks`. -/
def grounding_note (r : ℚ) : String :=
  if r < 3 / 10 then "Low grounding (" ++ pct r ++ ") - possible hallucination"
  else if r < 1 / 2 then "Moderate grounding (" ++ pct r ++ ")"
  else "Good grounding (" ++ pct r ++ ")"

/-- The relevance deduction of `heuristic_checks`. -/
def relevance_penalty (r : ℚ) : Int :=
  if r < 3 / 10 then 2 else 0

/-- The relevance note of `heuristic_checks`. -/
def relevance_note (r : ℚ) : String :=
  if r < 3 / 10 then
    "Low relevance (" ++ pct r ++ ") - might not be answering the right question"
  else "Relevance okay (" ++ pct r ++ ")"

/-- The final clamp of `heuristic_checks`: `max(1, min(10, score))`. -/
def clampScore (s : Int) : Int := max 1 (min 10 s)

/-- The record `heuristic_checks` returns. -/
structure HeuristicResult where
  notes : List (String × String)
  score : Int
deriving DecidableEq

/-- `heuristic_checks` from `critic_agent.py`: start at 10, deduct the
length, no-info, grounding and relevance penalties in turn, clamp to
`[1, 10]`; the notes dict in insertion order. -/
def heuristic_checks (answer context question : String) : HeuristicResult :=
  let g := grounding_overlap answer context
  let q := q_overlap answer question
  { notes :=
      [ ("length", length_note answer),
        ("no_info",
          if no_info_hit answer then
            "Answer says info is missing - might need different retrieval"
          else "Doesn\x27t flag missing info"),
        ("grounding", grounding_note g),
        ("relevance", relevance_note q) ]
    score := clampScore (10 - length_penalty answer -
      (if no_info_hit answer then 2 else 0) -
      grounding_penalty g - relevance_penalty q) }

/-- `llm_eval` from `critic_agent.py`: one qualitative feedback call to
the generation service. -/
def llm_eval (llm : String → String) (answer context question : String) : String :=
  let prompt :=
    "Evaluate this answer for completeness and accuracy. " ++
    "Point out anything missing or wrong.\n\n" ++
    "Question: " ++ question ++ "\n\n" ++
    "Context: " ++ pySlice context 500 ++ "\n\n" ++
    "Answer: " ++ answer ++ "\n\n" ++
    "Evaluation:"
  pyStrip (llm prompt)

/-- The record `evaluate` returns (also the shape `run_revision_loop`
expects from its `eval_fn`). -/
structure EvalReport where
  score : Int
  feedback : String
  notes : List (String × String)
  llm_feedback : String
  needs_revision : Bool
deriving DecidableEq

/-- `evaluate` from `critic_agent.py`: heuristics give the score, the
generation service only contributes a line of the readable summary;
`needs_revision = score < 7`. -/
def evaluate (llm : String → String) (answer context question : String) : EvalReport :=
  let h := heuristic_checks answer context question
  let l := llm_eval llm answer context question
  let feedback_lines :=
    h.notes.map (fun nv => "  - " ++ nv.1 ++ ": " ++ nv.2) ++ ["  - llm says: " ++ l]
  { score := h.score
    feedback := String.intercalate "\n" feedback_lines
    notes := h.notes
    llm_feedback := l
    needs_revision := decide (h.score < 7) }

/-- `MAX_ROUNDS` from `revision_agent.py`. -/
def MAX_ROUNDS : Nat := 2

/-- The record `revise` returns. -/
structure ReviseResult where
  revised : String
  original : String
  feedback_used : String
deriving DecidableEq

/-- `revise` from `revision_agent.py`: ask the generation service for an
improved answer, grounded in the first 500 characters of the same
context. -/
def revise (llm : String → String) (original_ans feedback context question : String) : ReviseResult :=
  let prompt :=
    "Improve this answer based on the feedback below. " ++
    "Stay grounded in the context, don\x27t make stuff up.\n\n" ++
    "Question: " ++ question ++ "\n\n" ++
    "Context: " ++ pySlice context 500 ++ "\n\n" ++
    "Original answer: " ++ original_ans ++ "\n\n" ++
    "Feedback: " ++ feedback ++ "\n\n" ++
    "Improved answer:"
  { revised := pyStrip (llm prompt)
    original := original_ans
    feedback_used := feedback }

/-- One entry of the revision history (`round` 0 is the initial
evaluation). -/
structure RoundEntry where
  round : Nat
  answer : String
  score : Int
  feedback : String
deriving DecidableEq

instance : Inhabited RoundEntry := ⟨⟨0, "", 0, ""⟩⟩

/-- The record `run_revision_loop` returns. -/
structure LoopResult where
  final_answer : String
  rounds : Nat
  history : List RoundEntry
  got_better : Bool
  score_before : Int
  score_after : Int
deriving DecidableEq

/-- The `while ev.needs_revision and rounds_done < max_rounds` loop of
`run_revision_loop`; `fuel = max_rounds - rounds_done` encodes the round
budget, so the guard `rounds_done < max_rounds` is `0 < fuel`. Returns
the current answer, `rounds_done` and the history. -/
def revision_go (eval_fn : String → String → String → String → EvalReport)
    (llm : String → String) (context question model_name : String) :
    Nat → String → EvalReport → Nat → List RoundEntry → String × Nat × List RoundEntry
  | 0, current, _, rounds_done, history => (current, rounds_done, history)
  | fuel + 1, current, ev, rounds_done, history =>
    if ev.needs_revision then
      let rev := revise llm current ev.feedback context question
      let current := rev.revised
      let ev2 := eval_fn current context question model_name
      let rounds_done := rounds_done + 1
      revision_go eval_fn llm context question model_name fuel current ev2 rounds_done
        (history ++ [{ round := rounds_done, answer := current, score := ev2.score, feedback := ev2.feedback }])
    else (current, rounds_done, history)

/-- `run_revision_loop` from `revision_agent.py`: evaluate once (round 0),
then revise and re-evaluate while the critic asks for revision and the
round budget remains; always returns normally, also when the budget runs
out with a low score. -/
def run_revision_loop (eval_fn : String → String → String → String → EvalReport)
    (llm : String → String) (answer context question model_name : String)
    (max_rounds : Nat) : LoopResult :=
  let ev := eval_fn answer context question model_name
  let history : List RoundEntry :=
    [{ round := 0, answer := answer, score := ev.score, feedback := ev.feedback }]
  let res := revision_go eval_fn llm context question model_name max_rounds answer ev 0 history
  let first_score := res.2.2.headI.score
  let last_score := res.2.2.getLastI.score
  { final_answer := res.1
    rounds := res.2.1
    history := res.2.2
    got_better := decide (first_score < last_score)
    score_before := first_score
    score_after := last_score }

/-- One session entry of `memory.py` (`time` is passed in explicitly:
the embedding makes the `datetime.now()` input an argument). -/
structure SessionEntry where
  time : String
  query : String
  subtasks : List String
  chunks_used : List String
  first_answer : String
  critic_score : Int
  feedback : String
  final_answer : String
  revisions : Nat
deriving DecidableEq

/-- The `Memory` store of `memory.py`: a list of session entries. -/
structure Memory where
  log : List SessionEntry
deriving DecidableEq

/-- `Memory.save`: append one entry. -/
def Memory.save (m : Memory) (e : SessionEntry) : Memory :=
  { log := m.log ++ [e] }

/-- `Memory.count`. -/
def Memory.count (m : Memory) : Nat := m.log.length

/-- `Memory.clear`. -/
def Memory.clear (_ : Memory) : Memory := { log := [] }

/-- The Q/A line of one entry in `get_recent`: the final answer if
non-empty (Python `e["final_answer"] or e["first_answer"]`), else the
first answer. -/
def entryLine (e : SessionEntry) : String :=
  "Q: " ++ e.query ++ "\nA: " ++ (if e.final_answer ≠ "" then e.final_answer else e.first_answer)

/-- `Memory.get_recent` from `memory.py`. The window is
`self.log[-n:] if len(self.log) >= n else self.log`; note that Python's
`log[-0:]` is `log[0:]`, the whole log, so `n = 0` selects every entry. -/
def Memory.get_recent (m : Memory) (n : Nat) : String :=
  let recent :=
    if n ≤ m.log.length then
      if n = 0 then m.log else m.log.drop (m.log.length - n)
    else m.log
  if recent.isEmpty then "No previous queries."
  else String.intercalate "\n\n" (recent.map entryLine)

/-- One chunk produced by `chunk_text` in `chunking.py`. -/
structure Chunk where
  text : String
  chunk_id : Nat
  start : Nat
  stop : Nat
deriving DecidableEq

/-- Python `text.rfind(pat, start, stop)` restricted to `stop ≤ len(text)`
(as used by `chunk_text`): the largest `i` with `start ≤ i`,
`i + len(pat) ≤ stop` and `pat` occurring at `i`; `none` for Python's
`-1`. -/
def rfindSub (text pat : List Char) (start stop : Nat) : Option Nat :=
  ((List.range' start (stop - start)).filter
    (fun i => decide (i + pat.length ≤ stop) && decide ((text.drop i).take pat.length = pat))).getLast?

/-- The sentence-boundary snap of `chunk_text`: prefer `". "`, then a
newline, then a space, each searched backwards in `[pos, e)`; use the
boundary only when it lies strictly after `pos`. -/
def snapEnd (text : List Char) (pos e : Nat) : Nat :=
  let bp := rfindSub text ['.', ' '] pos e
  let bp := match bp with
    | some b => some b
    | none => rfindSub text ['\n'] pos e
  let bp := match bp with
    | some b => some b
    | none => rfindSub text [' '] pos e
  match bp with
  | some b => if pos < b then b + 1 else e
  | none => e

/-- The `while pos < len(text)` loop of `chunk_text`, with explicit fuel:
`none` models the loop still running when the fuel runs out, so
`(∀ fuel, ... = none)` is non-termination and `isSome` at adequate fuel is
termination. Each pass advances `pos` by `chunk_size - overlap`
(truncated subtraction: the Python increment is non-positive exactly when
it is 0 here, and in both readings the loop then never exits). -/
def chunk_go (text : List Char) (chunk_size overlap : Nat) :
    Nat → Nat → Nat → List Chunk → Option (List Chunk)
  | 0, pos, _, acc => if pos < text.length then none else some acc.reverse
  | fuel + 1, pos, idx, acc =>
    if pos < text.length then
      let e0 := pos + chunk_size
      let e := if e0 < text.length then snapEnd text pos e0 else e0
      let piece := stripList ((text.drop pos).take (e - pos))
      let next := pos + (chunk_size - overlap)
      if piece.isEmpty then chunk_go text chunk_size overlap fuel next idx acc
      else chunk_go text chunk_size overlap fuel next (idx + 1)
        ({ text := ⟨piece⟩, chunk_id := idx, start := pos, stop := e } :: acc)
    else some acc.reverse

/-- `chunk_text` from `chunking.py` with explicit fuel for the scan loop:
empty or whitespace-only text short-circuits to `[]` before the loop. -/
def chunk_text_fuel (fuel : Nat) (text : String) (chunk_size overlap : Nat) : Option (List Chunk) :=
  if text = "" ∨ pyStrip text = "" then some []
  else chunk_go text.data chunk_size overlap fuel 0 0 []

/-! ### Helper lemmas about stripping and substring containment -/

/-- Dropping whitespace from the left cannot eat into an occurrence whose
first character is not whitespace. -/
theorem dropWhile_append_cons (sp : Char → Bool) (a : List Char) (c : Char) (r : List Char)
    (hc : sp c = false) :
    (a ++ c :: r).dropWhile sp = a.dropWhile sp ++ c :: r := by
  induction a with
  | nil => simp [List.dropWhile_cons, hc]
  | cons x xs ih =>
    by_cases hx : sp x
    · simp [List.dropWhile_cons, hx, ih]
    · simp [List.dropWhile_cons, hx]

/-- An occurrence whose first and last characters are not whitespace
survives `strip`. -/
theorem isInfix_stripList (p l : List Char) (hne : p ≠ [])
    (hh : p.head?.all (fun d => !pyIsSpace d) = true)
    (hl : p.getLast?.all (fun d => !pyIsSpace d) = true)
    (hinf : p <:+: l) : p <:+: stripList l := by
  obtain ⟨c, cs, rfl⟩ : ∃ c cs, p = c :: cs := by
    cases p with
    | nil => exact absurd rfl hne
    | cons c cs => exact ⟨c, cs, rfl⟩
  obtain ⟨s, t, rfl⟩ := hinf
  have hc : pyIsSpace c = false := by
    simp [Option.all] at hh
    simpa using hh
  obtain ⟨d, es, hde⟩ : ∃ d es, (c :: cs).reverse = d :: es := by
    cases hr : (c :: cs).reverse with
    | nil => simp at hr
    | cons d es => exact ⟨d, es, rfl⟩
  have hd : pyIsSpace d = false := by
    have hlast : (c :: cs).getLast? = some d := by
      rw [← List.head?_reverse, hde]; rfl
    rw [hlast] at hl
    simpa [Option.all] using hl
  have h1 : (s ++ (c :: cs) ++ t).dropWhile pyIsSpace
      = s.dropWhile pyIsSpace ++ (c :: cs) ++ t := by
    have := dropWhile_append_cons pyIsSpace s c (cs ++ t) hc
    simpa [List.append_assoc] using this
  have h2 : ((s.dropWhile pyIsSpace ++ (c :: cs) ++ t).reverse).dropWhile pyIsSpace
      = t.reverse.dropWhile pyIsSpace ++ (d :: es) ++ (s.dropWhile pyIsSpace).reverse := by
    have := dropWhile_append_cons pyIsSpace t.reverse d (es ++ (s.dropWhile pyIsSpace).reverse) hd
    simp only [List.reverse_append, hde, List.append_assoc] at *
    simpa using this
  refine ⟨s.dropWhile pyIsSpace, (t.reverse.dropWhile pyIsSpace).reverse, ?_⟩
  rw [stripList, h1, h2]
  have hrev : (d :: es).reverse = c :: cs := by
    rw [← hde, List.reverse_reverse]
  have h3 : es.reverse ++ [d] = c :: cs := by
    simpa using hrev
  have h4 : es.reverse ++ d :: (List.dropWhile pyIsSpace t.reverse).reverse
      = c :: (cs ++ (List.dropWhile pyIsSpace t.reverse).reverse) := by
    have h5 : (es.reverse ++ [d]) ++ (List.dropWhile pyIsSpace t.reverse).reverse
        = (c :: cs) ++ (List.dropWhile pyIsSpace t.reverse).reverse := by rw [h3]
    simpa [List.append_assoc] using h5
  simp [List.reverse_append, hrev, List.append_assoc, h4]

/-- The stripped list is an infix of the original. -/
theorem stripList_isInfix (l : List Char) : stripList l <:+: l := by
  have hsuf1 : (l.dropWhile pyIsSpace).reverse.dropWhile pyIsSpace
      <:+ (l.dropWhile pyIsSpace).reverse := List.dropWhile_suffix pyIsSpace
  have hsuf2 : l.dropWhile pyIsSpace <:+ l := List.dropWhile_suffix pyIsSpace
  obtain ⟨a, ha⟩ := hsuf1
  obtain ⟨b, hb⟩ := hsuf2
  refine ⟨b, a.reverse, ?_⟩
  have hdw : l.dropWhile pyIsSpace = stripList l ++ a.reverse := by
    have := congrArg List.reverse ha
    simpa [stripList, List.reverse_append] using this.symm
  conv_rhs => rw [← hb, hdw]
  rw [List.append_assoc]

/-- `strip` of an all-whitespace list is empty, and conversely. -/
theorem all_space_of_stripList_eq_nil (l : List Char) (h : stripList l = []) :
    ∀ c ∈ l, pyIsSpace c = true := by
  have h1 : ((l.dropWhile pyIsSpace).reverse).dropWhile pyIsSpace = [] := by
    rw [stripList] at h
    simpa using congrArg List.reverse h
  have h3 : ∀ c ∈ l.dropWhile pyIsSpace, pyIsSpace c = true := by
    intro c hc
    exact List.dropWhile_eq_nil_iff.mp h1 c (List.mem_reverse.mpr hc)
  intro c hc
  rw [← @List.takeWhile_append_dropWhile _ pyIsSpace l] at hc
  rcases List.mem_append.mp hc with h | h
  · exact List.mem_takeWhile_imp h
  · exact h3 c h

/-- `Char.toLower` fixes whitespace characters. -/
theorem toLower_of_space (c : Char) (h : pyIsSpace c = true) : Char.toLower c = c := by
  have hc : c = ' ' ∨ c = '\t' ∨ c = '\n' ∨ c = '\r' ∨ c = '\x0b' ∨ c = '\x0c' := by
    simpa [pyIsSpace, Bool.or_eq_true, decide_eq_true_eq, or_assoc] using h
  rcases hc with rfl | rfl | rfl | rfl | rfl | rfl <;> decide

/-- Lower-casing a whitespace-only string leaves it unchanged. -/
theorem pyLower_of_strip_nil (s : String) (h : pyStrip s = "") : pyLower s = s := by
  have hdata : stripList s.data = [] := congrArg String.data h
  have hall := all_space_of_stripList_eq_nil s.data hdata
  have hmap : s.data.map Char.toLower = s.data := by
    have : s.data.map Char.toLower = s.data.map (fun c => c) :=
      List.map_congr_left (fun c hc => toLower_of_space c (hall c hc))
    rw [this, List.map_id']
  cases s with
  | mk data => simpa [pyLower] using congrArg String.mk hmap

/-- The clamp keeps every score at least 1. -/
theorem one_le_clampScore (s : Int) : 1 ≤ clampScore s :=
  le_max_left 1 (min 10 s)

/-- The clamp keeps every score at most 10. -/
theorem clampScore_le_ten (s : Int) : clampScore s ≤ 10 :=
  max_le (by norm_num) (min_le_left 10 s)

/-! ### Claim theorems -/

/-- C2: for every answer, context and question (and any behaviour of the
generation service), `evaluate` returns an integer score with
`1 ≤ score ≤ 10`, and its `needs_revision` flag holds exactly when
`score < 7`. -/
theorem evaluate_score_bounds (llm : String → String) (answer context question : String) :
    1 ≤ (evaluate llm answer context question).score ∧
    (evaluate llm answer context question).score ≤ 10 ∧
    ((evaluate llm answer context question).needs_revision = true ↔
      (evaluate llm answer context question).score < 7) := by
  refine ⟨one_le_clampScore _, clampScore_le_ten _, ?_⟩
  show decide ((heuristic_checks answer context question).score < 7) = true ↔
    (heuristic_checks answer context question).score < 7
  exact decide_eq_true_iff

/-- C8: the numeric score and the `needs_revision` flag of `evaluate` do
not depend on the generation service: two services producing different
qualitative feedback yield the same score and the same flag. -/
theorem evaluate_llm_independent (llm1 llm2 : String → String)
    (answer context question : String) :
    (evaluate llm1 answer context question).score =
      (evaluate llm2 answer context question).score ∧
    (evaluate llm1 answer context question).needs_revision =
      (evaluate llm2 answer context question).needs_revision :=
  ⟨rfl, rfl⟩

/-- C9: `build_answer` sends the assembled prompt unmodified when it is at
most 2000 characters, and otherwise rebuilds it from the first 1800
characters of the context; in both cases the answer is the (stripped)
generation-service output on the prompt actually used. -/
theorem build_answer_prompt_budget (llm : String → String)
    (question context model_name : String) :
    ((make_prompt question context).length ≤ 2000 →
      (build_answer llm question context model_name).prompt_used =
        make_prompt question context) ∧
    (2000 < (make_prompt question context).length →
      (build_answer llm question context model_name).prompt_used =
        make_prompt question (pySlice context 1800)) := by
  refine ⟨?_, ?_⟩
  · intro h
    have hno : ¬ 2000 < (make_prompt question context).length := Nat.not_lt.mpr h
    simp only [build_answer]
    rw [if_neg hno]
  · intro h
    simp only [build_answer]
    rw [if_pos h]

/-- The length of the assembled prompt is the length of the fixed template
plus the lengths of the context and the question. -/
theorem make_prompt_length (question context : String) :
    (make_prompt question context).length =
      (make_prompt "" "").length + context.length + question.length := by
  simp only [make_prompt, String.length_append, show ("" : String).length = 0 from rfl]
  omega

/-- The generation service used in concrete witnesses. -/
def llm0 : String → String := fun _ => "stub output"

/-- A 2000-character context, long enough to overflow the prompt budget. -/
def bigCtx : String := ⟨List.replicate 2000 'x'⟩

set_option maxRecDepth 8192 in
/-- Witness for C9: a short context goes through unmodified, the
2000-character context triggers the 1800-character truncation. -/
theorem build_answer_prompt_budget_witness :
    (build_answer llm0 "q" "c" LLM_NAME).prompt_used = make_prompt "q" "c" ∧
    (build_answer llm0 "q" bigCtx LLM_NAME).prompt_used =
      make_prompt "q" (pySlice bigCtx 1800) :=
  ⟨(build_answer_prompt_budget llm0 "q" "c" LLM_NAME).1
    (by rw [make_prompt_length]; decide),
   (build_answer_prompt_budget llm0 "q" bigCtx LLM_NAME).2
    (by
      rw [make_prompt_length]
      have hb : bigCtx.length = 2000 := by
        show String.length ⟨List.replicate 2000 'x'⟩ = 2000
        rw [String.length_mk, List.length_replicate]
      have hq : ("q" : String).length = 1 := rfl
      omega)⟩

/-- C5: the scenario query decomposes into the methodology part, the
limitations part, and the synthesis step, and is flagged complex and
compound. -/
theorem plan_query_methodology_limitations :
    (plan_query "Explain the methodology and limitations.").complexity.is_complex = true ∧
    (plan_query "Explain the methodology and limitations.").is_compound = true ∧
    (plan_query "Explain the methodology and limitations.").subtasks =
      ["Subtask 1: Explain the methodology", "Subtask 2: Limitations.",
       "Subtask 3: Combine and summarize findings."] := by
  refine ⟨?_, ?_, ?_⟩ <;> decide

/-- Counterexample for C3: `versus` is not in the code's phrase list, and
a query containing `versus` (with no other complexity signal) is marked
simple, not complex. -/
theorem check_complexity_versus_counterexample :
    strContains (pyLower "cats versus dogs") "versus" = true ∧
    (check_complexity "cats versus dogs").is_complex = false := by
  refine ⟨?_, ?_⟩ <;> decide

/-- C3 (amended): for every query containing, case-insensitively, one of
the six phrases actually in `complex_phrases` (`compare`, `difference`,
`advantages and disadvantages`, `limitations`, `pros and cons`,
`contrast` — not `versus`), `check_complexity` marks the query complex
and names a matched phrase in the reason. -/
theorem check_complexity_phrase_hit (query p : String) (hp : p ∈ complex_phrases)
    (h : strContains (pyLower query) p = true) :
    (check_complexity query).is_complex = true ∧
    ∃ p0 ∈ complex_phrases, strContains (pyLower query) p0 = true ∧
      strContains (check_complexity query).reason p0 = true := by
  have hedge : p.data ≠ [] ∧ p.data.head?.all (fun d => !pyIsSpace d) = true ∧
      p.data.getLast?.all (fun d => !pyIsSpace d) = true := by
    fin_cases hp <;> exact ⟨by decide, by decide, by decide⟩
  have hq : strContains (pyStrip (pyLower query)) p = true := by
    rw [strContains, decide_eq_true_iff] at h ⊢
    exact isInfix_stripList p.data (pyLower query).data hedge.1 hedge.2.1 hedge.2.2 h
  obtain ⟨p0, hf⟩ : ∃ p0,
      complex_phrases.find? (fun x => strContains (pyStrip (pyLower query)) x) = some p0 := by
    cases hf : complex_phrases.find? (fun x => strContains (pyStrip (pyLower query)) x) with
    | some p0 => exact ⟨p0, rfl⟩
    | none => exact absurd hq (by simpa using List.find?_eq_none.mp hf p hp)
  have hp0mem : p0 ∈ complex_phrases := List.mem_of_find?_eq_some hf
  have hp0q : strContains (pyStrip (pyLower query)) p0 = true := List.find?_some hf
  have hcc : check_complexity query =
      { is_complex := true
        reason := "Found \x27" ++ p0 ++ "\x27 - query likely needs multiple retrieval steps" } := by
    simp only [check_complexity, hf]
  refine ⟨by rw [hcc], p0, hp0mem, ?_, ?_⟩
  · rw [strContains, decide_eq_true_iff] at hp0q ⊢
    exact hp0q.trans (stripList_isInfix (pyLower query).data)
  · rw [hcc, strContains, decide_eq_true_iff]
    refine ⟨("Found \x27" : String).data,
      ("\x27 - query likely needs multiple retrieval steps" : String).data, ?_⟩
    simp [String.data_append, List.append_assoc]

/-- Witness for C3 (amended): a query containing `difference` is complex
and the reason names a phrase found in the query. -/
theorem check_complexity_phrase_hit_witness :
    (check_complexity "what is the difference?").is_complex = true ∧
    ∃ p0 ∈ complex_phrases, strContains (pyLower "what is the difference?") p0 = true ∧
      strContains (check_complexity "what is the difference?").reason p0 = true :=
  check_complexity_phrase_hit "what is the difference?" "difference" (by decide) (by decide)

/-- C7: every query that strips to the empty string (empty or
whitespace-only) yields exactly one passthrough subtask
`Subtask 1: ` + the original query; `plan_query` is total, so no error
path exists. -/
theorem plan_query_blank (query : String) (h : pyStrip query = "") :
    (plan_query query).subtasks = ["Subtask 1: " ++ query] := by
  have hq : pyStrip (pyLower query) = "" := by
    rw [pyLower_of_strip_nil query h, h]
  have hcc : check_complexity query =
      { is_complex := false, reason := "Simple single-topic query" } := by
    simp only [check_complexity, hq]
    decide
  simp only [plan_query, hq, hcc]
  simp [show sectionScan "" = [] from by decide]

/-- Witness for C7: the three-space query. -/
theorem plan_query_blank_witness :
    pyStrip "   " = "" ∧ (plan_query "   ").subtasks = ["Subtask 1: " ++ "   "] :=
  ⟨by decide, plan_query_blank "   " (by decide)⟩

/-- Counterexample for C4: the answer `the` is word-for-word identical to
its context, yet—having no non-stop tokens—its grounding ratio is 0, not
100%, and the grounding deduction of 3 applies. -/
theorem grounding_identical_counterexample :
    grounding_overlap "the" "the" = 0 ∧
    grounding_penalty (grounding_overlap "the" "the") = 3 := by
  have ht : tokenSet "the" = [] := by decide
  have h0 : grounding_overlap "the" "the" = 0 := by
    simp [grounding_overlap, ht]
  refine ⟨h0, ?_⟩
  rw [h0]
  norm_num [grounding_penalty]

/-- C4 (amended): every answer identical to its context that has at least
one non-stop token gets grounding ratio 1 (100%) and no grounding
deduction. -/
theorem grounding_identical (answer context : String) (hid : answer = context)
    (hne : tokenSet answer ≠ []) :
    grounding_overlap answer context = 1 ∧
    grounding_penalty (grounding_overlap answer context) = 0 := by
  subst hid
  have hlen : 0 < (tokenSet answer).length := List.length_pos.mpr hne
  have hfil : (tokenSet answer).filter (fun w => decide (w ∈ tokenSet answer)) =
      tokenSet answer :=
    List.filter_eq_self.mpr (fun a ha => decide_eq_true ha)
  have h1 : grounding_overlap answer answer = 1 := by
    simp only [grounding_overlap, if_pos hlen, hfil]
    exact div_self (by exact_mod_cast hlen.ne')
  refine ⟨h1, by rw [h1]; norm_num [grounding_penalty]⟩

/-- Witness for C4 (amended): `cats` as both answer and context. -/
theorem grounding_identical_witness :
    grounding_overlap "cats" "cats" = 1 ∧
    grounding_penalty (grounding_overlap "cats" "cats") = 0 :=
  grounding_identical "cats" "cats" rfl (by decide)

/-- The window the claim describes for `get_recent`: exactly the last
`min n (count)` entries, formatted as the code formats them. -/
def get_recent_claimed (m : Memory) (n : Nat) : String :=
  let recent := m.log.drop (m.log.length - min n m.log.length)
  if recent.isEmpty then "No previous queries."
  else String.intercalate "\n\n" (recent.map entryLine)

/-- A one-entry memory used to refute the `n = 0` case of C6. -/
def exMem1 : Memory :=
  ⟨[{ time := "t0", query := "q1", subtasks := [], chunks_used := [],
      first_answer := "a1", critic_score := 8, feedback := "", final_answer := "f1",
      revisions := 0 }]⟩

/-- Counterexample for C6: at `n = 0` Python's `log[-0:]` is the whole
log, so `get_recent` returns the sole entry instead of the last
`min(0, 1) = 0` entries. -/
theorem get_recent_zero_counterexample :
    Memory.get_recent exMem1 0 = "Q: q1\nA: f1" ∧
    get_recent_claimed exMem1 0 = "No previous queries." ∧
    Memory.get_recent exMem1 0 ≠ get_recent_claimed exMem1 0 := by
  refine ⟨?_, ?_, ?_⟩ <;> decide

/-- C6 (amended): for every session log and every `n ≥ 1`, `get_recent`
returns exactly the last `min n (count)` entries, formatted as
alternating question/answer text (final answer if present, else the
first answer), oldest of the window first. -/
theorem get_recent_eq_claimed (m : Memory) (n : Nat) (h : 1 ≤ n) :
    Memory.get_recent m n = get_recent_claimed m n := by
  rw [Memory.get_recent, get_recent_claimed]
  by_cases hle : n ≤ m.log.length
  · rw [if_pos hle, if_neg (by omega : ¬ n = 0), min_eq_left hle]
  · rw [if_neg hle, min_eq_right (le_of_not_le hle), Nat.sub_self, List.drop_zero]

/-- A two-entry memory for the C6 witness. -/
def exMem2 : Memory :=
  ⟨[{ time := "t0", query := "q1", subtasks := [], chunks_used := [],
      first_answer := "a1", critic_score := 8, feedback := "", final_answer := "f1",
      revisions := 0 },
    { time := "t1", query := "q2", subtasks := [], chunks_used := [],
      first_answer := "a2", critic_score := 9, feedback := "", final_answer := "f2",
      revisions := 1 }]⟩

/-- Witness for C6 (amended): after two `save` calls, `get_recent 1`
returns only the second entry. -/
theorem get_recent_eq_claimed_witness :
    Memory.get_recent exMem2 1 = get_recent_claimed exMem2 1 ∧
    Memory.get_recent exMem2 1 = "Q: q2\nA: f2" :=
  ⟨get_recent_eq_claimed exMem2 1 (by decide), by decide⟩

/-- Unfolding equation of `revision_go` at zero fuel. -/
theorem revision_go_zero (eval_fn : String → String → String → String → EvalReport)
    (llm : String → String) (context question model_name current : String)
    (ev : EvalReport) (rounds_done : Nat) (history : List RoundEntry) :
    revision_go eval_fn llm context question model_name 0 current ev rounds_done history =
      (current, rounds_done, history) := rfl

/-- Unfolding equation of `revision_go` at positive fuel. -/
theorem revision_go_succ (eval_fn : String → String → String → String → EvalReport)
    (llm : String → String) (context question model_name current : String)
    (ev : EvalReport) (fuel rounds_done : Nat) (history : List RoundEntry) :
    revision_go eval_fn llm context question model_name (fuel + 1) current ev rounds_done
        history =
      if ev.needs_revision then
        revision_go eval_fn llm context question model_name fuel
          (revise llm current ev.feedback context question).revised
          (eval_fn (revise llm current ev.feedback context question).revised context question
            model_name)
          (rounds_done + 1)
          (history ++
            [{ round := rounds_done + 1
               answer := (revise llm current ev.feedback context question).revised
               score := (eval_fn (revise llm current ev.feedback context question).revised
                 context question model_name).score
               feedback := (eval_fn (revise llm current ev.feedback context question).revised
                 context question model_name).feedback }])
      else (current, rounds_done, history) := rfl

/-- Invariant propagation through the revision loop: the history keeps
one entry per evaluation (`rounds + 1` of them), rounds grow by at most
the remaining budget, and the entry at position `i` carries round index
`i`. -/
theorem revision_go_invariant (eval_fn : String → String → String → String → EvalReport)
    (llm : String → String) (context question model_name : String) :
    ∀ (fuel : Nat) (current : String) (ev : EvalReport) (rounds_done : Nat)
      (history : List RoundEntry),
      history.length = rounds_done + 1 →
      (∀ (i : Nat) (e : RoundEntry), history[i]? = some e → e.round = i) →
      (revision_go eval_fn llm context question model_name fuel current ev rounds_done
          history).2.2.length =
        (revision_go eval_fn llm context question model_name fuel current ev rounds_done
          history).2.1 + 1 ∧
      (revision_go eval_fn llm context question model_name fuel current ev rounds_done
          history).2.1 ≤ rounds_done + fuel ∧
      (∀ (i : Nat) (e : RoundEntry), (revision_go eval_fn llm context question model_name fuel
          current ev rounds_done history).2.2[i]? = some e → e.round = i) := by
  intro fuel
  induction fuel with
  | zero =>
    intro current ev rounds_done history hlen hidx
    rw [revision_go_zero]
    exact ⟨hlen, Nat.le_refl _, hidx⟩
  | succ fuel ih =>
    intro current ev rounds_done history hlen hidx
    by_cases hrev : ev.needs_revision
    · rw [revision_go_succ, if_pos hrev]
      set cur2 := (revise llm current ev.feedback context question).revised with hcur2
      set ev2 := eval_fn cur2 context question model_name with hev2
      set e2 : RoundEntry :=
        { round := rounds_done + 1, answer := cur2, score := ev2.score,
          feedback := ev2.feedback } with he2
      have hlen2 : (history ++ [e2]).length = (rounds_done + 1) + 1 := by
        simp [hlen]
      have hidx2 : ∀ (i : Nat) (e : RoundEntry), (history ++ [e2])[i]? = some e → e.round = i := by
        intro i e he
        rcases Nat.lt_or_ge i history.length with hlt | hge
        · rw [List.getElem?_append_left hlt] at he
          exact hidx i e he
        · rw [List.getElem?_append_right hge] at he
          cases hj : i - history.length with
          | zero =>
            rw [hj] at he
            simp only [List.getElem?_cons_zero, Option.some.injEq] at he
            subst he
            show rounds_done + 1 = i
            omega
          | succ j =>
            rw [hj] at he
            simp at he
      have hres := ih cur2 ev2 (rounds_done + 1) (history ++ [e2]) hlen2 hidx2
      refine ⟨hres.1, ?_, hres.2.2⟩
      have h2 := hres.2.1
      omega
    · rw [revision_go_succ, if_neg hrev]
      exact ⟨hlen, Nat.le_add_right _ _, hidx⟩

/-- C1: for every evaluation function, generation service and round cap
`max_rounds`, `run_revision_loop` produces a history with one entry per
evaluation — `rounds + 1` entries, so at most `max_rounds + 1`
evaluations and at most `max_rounds` calls of the revise step — whose
entry at position `i` has round index `i` (round 0 first, strictly
increasing by 1); the loop is a total function, so exhausting the budget
with a low score still returns normally. -/
theorem run_revision_loop_bounds (eval_fn : String → String → String → String → EvalReport)
    (llm : String → String) (answer context question model_name : String)
    (max_rounds : Nat) :
    (run_revision_loop eval_fn llm answer context question model_name max_rounds).history.length =
      (run_revision_loop eval_fn llm answer context question model_name max_rounds).rounds + 1 ∧
    (run_revision_loop eval_fn llm answer context question model_name max_rounds).rounds ≤
      max_rounds ∧
    (∀ (i : Nat) (e : RoundEntry),
      (run_revision_loop eval_fn llm answer context question model_name
        max_rounds).history[i]? = some e → e.round = i) := by
  set ev0 := eval_fn answer context question model_name with hev0
  set h0 : List RoundEntry :=
    [{ round := 0, answer := answer, score := ev0.score, feedback := ev0.feedback }] with hh0
  have hidx0 : ∀ (i : Nat) (e : RoundEntry), h0[i]? = some e → e.round = i := by
    intro i e he
    cases i with
    | zero =>
      rw [hh0] at he
      simp only [List.getElem?_cons_zero, Option.some.injEq] at he
      subst he
      rfl
    | succ j =>
      rw [hh0] at he
      simp at he
  have H := revision_go_invariant eval_fn llm context question model_name max_rounds answer
    ev0 0 h0 (by rw [hh0]; rfl) hidx0
  have hhist : (run_revision_loop eval_fn llm answer context question model_name
      max_rounds).history =
      (revision_go eval_fn llm context question model_name max_rounds answer ev0 0 h0).2.2 := rfl
  have hrounds : (run_revision_loop eval_fn llm answer context question model_name
      max_rounds).rounds =
      (revision_go eval_fn llm context question model_name max_rounds answer ev0 0 h0).2.1 := rfl
  rw [hhist, hrounds]
  refine ⟨H.1, ?_, H.2.2⟩
  have h2 := H.2.1
  omega

/-- An evaluation function that always requests revision, used to witness
the loop hitting its round cap. -/
def evAlways : String → String → String → String → EvalReport := fun _ _ _ _ =>
  { score := 5, feedback := "needs work", notes := [], llm_feedback := "",
    needs_revision := true }

set_option maxRecDepth 8192 in
/-- Witness for C1: with an evaluation that always scores 5 (below the
threshold) and the default cap `MAX_ROUNDS = 2`, the loop stops normally
after exactly 2 revisions with 3 history entries, entry 0 being round 0. -/
theorem run_revision_loop_bounds_witness :
    (run_revision_loop evAlways llm0 "ans" "ctx" "qst" LLM_NAME MAX_ROUNDS).history.length =
      (run_revision_loop evAlways llm0 "ans" "ctx" "qst" LLM_NAME MAX_ROUNDS).rounds + 1 ∧
    (run_revision_loop evAlways llm0 "ans" "ctx" "qst" LLM_NAME MAX_ROUNDS).rounds ≤
      MAX_ROUNDS ∧
    (⟨0, "ans", 5, "needs work"⟩ : RoundEntry).round = 0 ∧
    (run_revision_loop evAlways llm0 "ans" "ctx" "qst" LLM_NAME MAX_ROUNDS).rounds =
      MAX_ROUNDS :=
  ⟨(run_revision_loop_bounds evAlways llm0 "ans" "ctx" "qst" LLM_NAME MAX_ROUNDS).1,
   (run_revision_loop_bounds evAlways llm0 "ans" "ctx" "qst" LLM_NAME MAX_ROUNDS).2.1,
   (run_revision_loop_bounds evAlways llm0 "ans" "ctx" "qst" LLM_NAME MAX_ROUNDS).2.2 0
     ⟨0, "ans", 5, "needs work"⟩ (by decide),
   by decide⟩

/-- When each pass advances the position by at least one character,
`text.length` fuel suffices for the chunking loop to finish. -/
theorem chunk_go_isSome (text : List Char) (chunk_size overlap : Nat)
    (hstep : 1 ≤ chunk_size - overlap) :
    ∀ (fuel pos idx : Nat) (acc : List Chunk), text.length ≤ fuel + pos →
      (chunk_go text chunk_size overlap fuel pos idx acc).isSome = true := by
  intro fuel
  induction fuel with
  | zero =>
    intro pos idx acc hle
    simp only [chunk_go]
    rw [if_neg (by omega)]
    rfl
  | succ fuel ih =>
    intro pos idx acc hle
    simp only [chunk_go]
    by_cases hpos : pos < text.length
    · rw [if_pos hpos]
      by_cases hpiece : (stripList ((text.drop pos).take
          ((if pos + chunk_size < text.length then snapEnd text pos (pos + chunk_size)
            else pos + chunk_size) - pos))).isEmpty
      · rw [if_pos hpiece]
        exact ih (pos + (chunk_size - overlap)) idx acc (by omega)
      · rw [if_neg hpiece]
        exact ih (pos + (chunk_size - overlap)) (idx + 1) _ (by omega)
    · rw [if_neg hpos]
      rfl

/-- When the position increment is zero, the chunking loop never exits
once entered: every fuel value runs out. -/
theorem chunk_go_none (text : List Char) (chunk_size overlap : Nat)
    (hstep : chunk_size - overlap = 0) :
    ∀ (fuel pos idx : Nat) (acc : List Chunk), pos < text.length →
      chunk_go text chunk_size overlap fuel pos idx acc = none := by
  intro fuel
  induction fuel with
  | zero =>
    intro pos idx acc hpos
    simp only [chunk_go]
    rw [if_pos hpos]
  | succ fuel ih =>
    intro pos idx acc hpos
    simp only [chunk_go]
    rw [if_pos hpos]
    have hnext : pos + (chunk_size - overlap) = pos := by omega
    by_cases hpiece : (stripList ((text.drop pos).take
        ((if pos + chunk_size < text.length then snapEnd text pos (pos + chunk_size)
          else pos + chunk_size) - pos))).isEmpty
    · rw [if_pos hpiece, hnext]
      exact ih pos idx acc hpos
    · rw [if_neg hpiece, hnext]
      exact ih pos (idx + 1) _ hpos

/-- C10 (amended): with `overlap < chunk_size` the scan position advances
by `chunk_size - overlap ≥ 1` each pass, so `length + 1` fuel always
completes (`chunk_text` terminates); and the precondition is required:
with `overlap ≥ chunk_size` and text that is non-empty **after
stripping**, the loop never terminates — no fuel is ever enough. -/
theorem chunk_text_termination (text : String) (chunk_size overlap : Nat) :
    (overlap < chunk_size →
      (chunk_text_fuel (text.length + 1) text chunk_size overlap).isSome = true) ∧
    (chunk_size ≤ overlap → pyStrip text ≠ "" →
      ∀ fuel, chunk_text_fuel fuel text chunk_size overlap = none) := by
  constructor
  · intro hlt
    rw [chunk_text_fuel]
    by_cases hguard : text = "" ∨ pyStrip text = ""
    · rw [if_pos hguard]
      rfl
    · rw [if_neg hguard]
      refine chunk_go_isSome text.data chunk_size overlap (by omega) _ 0 0 [] ?_
      cases text with
      | mk l => simp [String.length]
  · intro hge hstrip fuel
    have hguard : ¬ (text = "" ∨ pyStrip text = "") := by
      rintro (rfl | h)
      · exact hstrip rfl
      · exact hstrip h
    rw [chunk_text_fuel, if_neg hguard]
    refine chunk_go_none text.data chunk_size overlap (by omega) fuel 0 0 [] ?_
    have hne : text ≠ "" := by
      rintro rfl
      exact hstrip rfl
    cases text with
    | mk l =>
      cases l with
      | nil => exact absurd rfl hne
      | cons c cs => simp

/-- Counterexample for C10's side condition as stated: the whitespace-only
text `" "` is non-empty, `overlap = chunk_size = 1`, yet `chunk_text`
terminates immediately (the strip guard returns `[]` before the loop). -/
theorem chunk_text_blank_counterexample :
    (" " : String) ≠ "" ∧ 1 ≤ 1 ∧ chunk_text_fuel 0 " " 1 1 = some [] := by
  refine ⟨?_, ?_, ?_⟩ <;> decide

/-- Witness for C10 (amended): `overlap = 1 < 3 = chunk_size` terminates
on `"ab cd"`; `overlap = chunk_size = 3` on the non-blank `"ab"` returns
no result at fuel 9 (nor at any other fuel). -/
theorem chunk_text_termination_witness :
    (chunk_text_fuel (("ab cd" : String).length + 1) "ab cd" 3 1).isSome = true ∧
    chunk_text_fuel 9 "ab" 3 3 = none :=
  ⟨(chunk_text_termination "ab cd" 3 1).1 (by decide),
   (chunk_text_termination "ab" 3 3).2 (by decide) (by decide) 9⟩
